import Mathlib

/-!
Verification of the PlanCritic review post-processing pipeline.

The definitions below are a shallow embedding of the Go packages
`internal/review` (enums.go, types.go, score.go, summary.go, sort.go,
truncate.go, grounding.go), `internal/schema` (validate.go) and the
orchestration slice of `cmd/plancritic/check.go`.  Go `int` fields are
embedded as `Int`, Go strings as `String`, Go slices as `List`.
Struct fields keep their Go names.  Fields of `Review` that no verified
component ever reads or writes (`Input`, `Checklists`, `Meta` — the
latter carries a float temperature) are omitted from the embedding.
-/

/-! ### Result model: enums (internal/review/enums.go) -/

/-- Verdict is a string enum in the source (`type Verdict string`). -/
abbrev Verdict := String

def VerdictExecutable : Verdict := "EXECUTABLE_AS_IS"

def VerdictWithClarifications : Verdict := "EXECUTABLE_WITH_CLARIFICATIONS"

def VerdictNotExecutable : Verdict := "NOT_EXECUTABLE"

/-- Valid predicate of Verdict, from enums.go. -/
def verdictValid (v : Verdict) : Bool :=
  v = VerdictExecutable || v = VerdictWithClarifications || v = VerdictNotExecutable

/-- Severity is a string enum in the source (`type Severity string`). -/
abbrev Severity := String

def SeverityInfo : Severity := "INFO"

def SeverityWarn : Severity := "WARN"

def SeverityCritical : Severity := "CRITICAL"

/-- Valid predicate of Severity, from enums.go. -/
def severityValid (s : Severity) : Bool :=
  s = SeverityInfo || s = SeverityWarn || s = SeverityCritical

/-- Sort key of a severity (method `Severity.order` in enums.go):
lower = higher priority, unrecognized values rank last. -/
def severityOrder (s : Severity) : Nat :=
  if s = SeverityCritical then 0
  else if s = SeverityWarn then 1
  else if s = SeverityInfo then 2
  else 3

/-- Category is a string enum in the source (`type Category string`). -/
abbrev Category := String

def CategoryAmbiguity : Category := "AMBIGUITY"

/-- Valid predicate of Category, from enums.go (13 closed values). -/
def categoryValid (c : Category) : Bool :=
  c = "CONTRADICTION" || c = CategoryAmbiguity || c = "MISSING_PREREQUISITE" ||
  c = "MISSING_ACCEPTANCE_CRITERIA" || c = "RISK_SECURITY" || c = "RISK_DATA" ||
  c = "RISK_OPERATIONS" || c = "TEST_GAP" || c = "SCOPE_CREEP_RISK" ||
  c = "UNREALISTIC_STEP" || c = "ORDERING_DEPENDENCY" ||
  c = "UNSPECIFIED_INTERFACE" || c = "NON_DETERMINISM"

/-- PatchType is a string enum in the source (`type PatchType string`). -/
abbrev PatchType := String

/-- Valid predicate of PatchType, from enums.go. -/
def patchTypeValid (p : PatchType) : Bool :=
  p = "PLAN_TEXT_EDIT"

/-! ### Result model: structures (internal/review/types.go) -/

/-- Evidence references a specific location in the plan or context. -/
structure Evidence where
  Source : String
  Path : String
  LineStart : Int
  LineEnd : Int
  Quote : String
deriving DecidableEq, Repr

/-- Issue represents a detected problem in the plan. -/
structure Issue where
  ID : String
  Severity : Severity
  Category : Category
  Title : String
  Description : String
  Evidence : List Evidence
  Impact : String
  Recommendation : String
  Blocking : Bool
  Tags : List String
deriving DecidableEq, Repr

/-- Question represents an ambiguity that must be resolved. -/
structure Question where
  ID : String
  Severity : Severity
  Question : String
  WhyNeeded : String
  Blocks : List String
  Evidence : List Evidence
  SuggestedAnswers : List String
deriving DecidableEq, Repr

/-- Patch is an optional suggested edit to the plan text. -/
structure Patch where
  ID : String
  «Type» : PatchType
  Title : String
  DiffUnified : String
deriving DecidableEq, Repr

/-- Summary holds the verdict, score, and severity counts. -/
structure Summary where
  Verdict : Verdict
  Score : Int
  CriticalCount : Int
  WarnCount : Int
  InfoCount : Int
deriving DecidableEq, Repr

/-- Review is the top-level output object (fields read by the verified
pipeline; `Input`, `Checklists` and `Meta` are never inspected by it). -/
structure Review where
  Tool : String
  Version : String
  Summary : Summary
  Questions : List Question
  Issues : List Issue
  Patches : List Patch
deriving DecidableEq, Repr

def defaultEvidence : Evidence := ⟨ "", "", 0, 0, "" ⟩

def defaultIssue : Issue := ⟨ "", "", "", "", "", [], "", "", false, [] ⟩

def defaultQuestion : Question := ⟨ "", "", "", "", [], [], [] ⟩

def defaultSummary : Summary := ⟨ "", 0, 0, 0, 0 ⟩

def defaultReview : Review := ⟨ "", "", defaultSummary, [], [], [] ⟩

/-! ### Deterministic scorer (internal/review/score.go) -/

/-- Per-iteration body of the scoring loop: the Go switch subtracts
20 per CRITICAL, 7 per WARN, 2 per INFO, nothing otherwise. -/
def scoreStep (s : Int) (iss : Issue) : Int :=
  if iss.Severity = SeverityCritical then s - 20
  else if iss.Severity = SeverityWarn then s - 7
  else if iss.Severity = SeverityInfo then s - 2
  else s

/-- ComputeScore calculates a deterministic score from issue severity
counts: start at 100, run the loop, clamp at 0. -/
def ComputeScore (issues : List Issue) : Int :=
  let score := issues.foldl scoreStep 100
  if score < 0 then 0 else score

/-! ### Summary deriver (internal/review/summary.go) -/

/-- Per-iteration body of the summary tally loop in ComputeSummary. -/
def summaryStep (acc : Int × Int × Int × Bool) (iss : Issue) : Int × Int × Int × Bool :=
  if iss.Severity = SeverityCritical then
    (acc.1 + 1, acc.2.1, acc.2.2.1, acc.2.2.2 || iss.Blocking)
  else if iss.Severity = SeverityWarn then
    (acc.1, acc.2.1 + 1, acc.2.2.1, acc.2.2.2)
  else if iss.Severity = SeverityInfo then
    (acc.1, acc.2.1, acc.2.2.1 + 1, acc.2.2.2)
  else acc

/-- ComputeSummary derives the verdict, score, and severity counts from
the issue list. -/
def ComputeSummary (issues : List Issue) : Summary :=
  let acc := issues.foldl summaryStep (0, 0, 0, false)
  let verdict :=
    if acc.2.2.2 then VerdictNotExecutable
    else if acc.1 > 0 || acc.2.1 > 0 then VerdictWithClarifications
    else VerdictExecutable
  { Verdict := verdict
    Score := ComputeScore issues
    CriticalCount := acc.1
    WarnCount := acc.2.1
    InfoCount := acc.2.2.1 }

/-! ### Scorer and summary lemmas -/

/-- Deduction contributed by a single issue to the score. -/
def issueDeduction (iss : Issue) : Int :=
  if iss.Severity = SeverityCritical then 20
  else if iss.Severity = SeverityWarn then 7
  else if iss.Severity = SeverityInfo then 2
  else 0

def countCrit (issues : List Issue) : Nat :=
  issues.countP (fun i => i.Severity = SeverityCritical)

def countWarn (issues : List Issue) : Nat :=
  issues.countP (fun i => i.Severity = SeverityWarn)

def countInfo (issues : List Issue) : Nat :=
  issues.countP (fun i => i.Severity = SeverityInfo)

lemma scoreStep_eq (s : Int) (iss : Issue) : scoreStep s iss = s - issueDeduction iss := by
  by_cases h1 : iss.Severity = SeverityCritical
  · simp [scoreStep, issueDeduction, h1, SeverityCritical, SeverityWarn, SeverityInfo]
  · by_cases h2 : iss.Severity = SeverityWarn
    · simp [scoreStep, issueDeduction, h1, h2, SeverityCritical, SeverityWarn, SeverityInfo]
    · by_cases h3 : iss.Severity = SeverityInfo
      · simp [scoreStep, issueDeduction, h1, h2, h3, SeverityCritical, SeverityWarn,
          SeverityInfo]
      · simp [scoreStep, issueDeduction, h1, h2, h3]

lemma issueDeduction_eq (iss : Issue) :
    issueDeduction iss =
      20 * (countCrit [iss] : Int) + 7 * (countWarn [iss] : Int)
        + 2 * (countInfo [iss] : Int) := by
  by_cases h1 : iss.Severity = SeverityCritical
  · simp [issueDeduction, countCrit, countWarn, countInfo, h1, SeverityCritical,
      SeverityWarn, SeverityInfo]
  · by_cases h2 : iss.Severity = SeverityWarn
    · simp [issueDeduction, countCrit, countWarn, countInfo, h1, h2, SeverityCritical,
        SeverityWarn, SeverityInfo]
    · by_cases h3 : iss.Severity = SeverityInfo
      · simp [issueDeduction, countCrit, countWarn, countInfo, h1, h2, h3,
          SeverityCritical, SeverityWarn, SeverityInfo]
      · simp [issueDeduction, countCrit, countWarn, countInfo, h1, h2, h3]

lemma scoreFoldl : ∀ (issues : List Issue) (s : Int),
    issues.foldl scoreStep s =
      s - 20 * (countCrit issues : Int) - 7 * (countWarn issues : Int)
        - 2 * (countInfo issues : Int) := by
  intro issues
  induction issues with
  | nil => intro s; simp [countCrit, countWarn, countInfo]
  | cons head tail ih =>
    intro s
    have hd := issueDeduction_eq head
    simp only [countCrit, countWarn, countInfo, List.countP_cons,
      List.countP_nil, Nat.zero_add] at hd
    simp only [List.foldl_cons, scoreStep_eq, ih, countCrit, countWarn, countInfo,
      List.countP_cons]
    push_cast at hd ⊢
    omega

/-- Closed form of the scorer. -/
lemma computeScore_eq (issues : List Issue) :
    ComputeScore issues =
      max 0 (100 - 20 * (countCrit issues : Int) - 7 * (countWarn issues : Int)
        - 2 * (countInfo issues : Int)) := by
  simp only [ComputeScore, scoreFoldl]
  omega

/-- Boolean form of the blocking-critical test performed by the summary loop. -/
def isBlockingCritical (iss : Issue) : Bool :=
  decide (iss.Severity = SeverityCritical) && iss.Blocking

lemma summaryFoldl : ∀ (issues : List Issue) (c w i : Int) (b : Bool),
    issues.foldl summaryStep (c, w, i, b) =
      (c + (countCrit issues : Int), w + (countWarn issues : Int),
        i + (countInfo issues : Int), b || issues.any isBlockingCritical) := by
  intro issues
  induction issues with
  | nil => intro c w i b; simp [countCrit, countWarn, countInfo]
  | cons head tail ih =>
    intro c w i b
    simp only [List.foldl_cons]
    by_cases h1 : head.Severity = SeverityCritical
    · have hstep : summaryStep (c, w, i, b) head = (c + 1, w, i, b || head.Blocking) := by
        simp only [summaryStep]; rw [if_pos h1]
      rw [hstep, ih]
      refine Prod.ext ?_ (Prod.ext ?_ (Prod.ext ?_ ?_)) <;>
        simp [countCrit, countWarn, countInfo, List.countP_cons, isBlockingCritical,
          h1, SeverityCritical, SeverityWarn, SeverityInfo, Bool.or_assoc] <;>
        omega
    · by_cases h2 : head.Severity = SeverityWarn
      · have hstep : summaryStep (c, w, i, b) head = (c, w + 1, i, b) := by
          simp only [summaryStep]; rw [if_neg h1, if_pos h2]
        rw [hstep, ih]
        refine Prod.ext ?_ (Prod.ext ?_ (Prod.ext ?_ ?_)) <;>
          simp [countCrit, countWarn, countInfo, List.countP_cons, isBlockingCritical,
            h1, h2, SeverityCritical, SeverityWarn, SeverityInfo] <;>
          omega
      · by_cases h3 : head.Severity = SeverityInfo
        · have hstep : summaryStep (c, w, i, b) head = (c, w, i + 1, b) := by
            simp only [summaryStep]; rw [if_neg h1, if_neg h2, if_pos h3]
          rw [hstep, ih]
          refine Prod.ext ?_ (Prod.ext ?_ (Prod.ext ?_ ?_)) <;>
            simp [countCrit, countWarn, countInfo, List.countP_cons, isBlockingCritical,
              h1, h2, h3, SeverityCritical, SeverityWarn, SeverityInfo] <;>
            omega
        · have hstep : summaryStep (c, w, i, b) head = (c, w, i, b) := by
            simp only [summaryStep]; rw [if_neg h1, if_neg h2, if_neg h3]
          rw [hstep, ih]
          refine Prod.ext ?_ (Prod.ext ?_ (Prod.ext ?_ ?_)) <;>
            simp [countCrit, countWarn, countInfo, List.countP_cons, isBlockingCritical,
              h1, h2, h3]

/-! ### Deterministic orderer (internal/review/sort.go)

Go `sort.SliceStable(xs, less)` is a stable sort: the result is ordered by
`less` and elements that compare equal keep their input order.  It is
modelled here by the stable insertion sort with the reflexive relation
`le a b := less b a = false`; the stability of this model is proved below
(`insertionSort_filter_key`). -/

/-- Secondary sort key, from sort.go: the LineStart of the first Evidence
entry, 0 for an empty evidence list. -/
def firstLine (ev : List Evidence) : Int :=
  match ev with
  | [] => 0
  | e :: _ => e.LineStart

/-- Comparison closure passed to sort.SliceStable by SortIssues. -/
def issueLess (a b : Issue) : Bool :=
  if severityOrder a.Severity ≠ severityOrder b.Severity then
    decide (severityOrder a.Severity < severityOrder b.Severity)
  else
    decide (firstLine a.Evidence < firstLine b.Evidence)

/-- Comparison closure passed to sort.SliceStable by SortQuestions. -/
def questionLess (a b : Question) : Bool :=
  if severityOrder a.Severity ≠ severityOrder b.Severity then
    decide (severityOrder a.Severity < severityOrder b.Severity)
  else
    decide (firstLine a.Evidence < firstLine b.Evidence)

/-- Non-strict order induced by issueLess, used by the stable-sort model. -/
def issueLE (a b : Issue) : Prop := issueLess b a = false

/-- Non-strict order induced by questionLess. -/
def questionLE (a b : Question) : Prop := questionLess b a = false

instance : DecidableRel issueLE := fun a b => by unfold issueLE; infer_instance

instance : DecidableRel questionLE := fun a b => by unfold questionLE; infer_instance

lemma issueLE_iff (a b : Issue) :
    issueLE a b ↔ (severityOrder a.Severity < severityOrder b.Severity ∨
      (severityOrder a.Severity = severityOrder b.Severity ∧
        firstLine a.Evidence ≤ firstLine b.Evidence)) := by
  unfold issueLE issueLess
  by_cases h : severityOrder b.Severity ≠ severityOrder a.Severity <;>
    simp [h] <;> omega

lemma questionLE_iff (a b : Question) :
    questionLE a b ↔ (severityOrder a.Severity < severityOrder b.Severity ∨
      (severityOrder a.Severity = severityOrder b.Severity ∧
        firstLine a.Evidence ≤ firstLine b.Evidence)) := by
  unfold questionLE questionLess
  by_cases h : severityOrder b.Severity ≠ severityOrder a.Severity <;>
    simp [h] <;> omega

instance : IsTotal Issue issueLE :=
  ⟨ fun a b => by rw [issueLE_iff, issueLE_iff]; omega ⟩

instance : IsTrans Issue issueLE :=
  ⟨ fun a b c hab hbc => by
      rw [issueLE_iff] at *
      omega ⟩

instance : IsTotal Question questionLE :=
  ⟨ fun a b => by rw [questionLE_iff, questionLE_iff]; omega ⟩

instance : IsTrans Question questionLE :=
  ⟨ fun a b c hab hbc => by
      rw [questionLE_iff] at *
      omega ⟩

/-- SortIssues sorts issues by severity then first evidence line
(stable sort, from sort.go). -/
def SortIssues (issues : List Issue) : List Issue :=
  issues.insertionSort issueLE

/-- SortQuestions sorts questions by severity then first evidence line
(stable sort, from sort.go). -/
def SortQuestions (questions : List Question) : List Question :=
  questions.insertionSort questionLE

/-- Stability of the stable-sort model: a filter keeping one equivalence
class of the sort key is unchanged by sorting. -/
lemma insertionSort_filter_key {α : Type} (r : α → α → Prop) [DecidableRel r]
    (p : α → Bool) (l : List α) (hp : ∀ a b, p a = true → p b = true → r a b) :
    (l.insertionSort r).filter p = l.filter p := by
  have hc : (l.filter p).Pairwise r := by
    rw [List.pairwise_iff_forall_sublist]
    intro a b hab
    have ha := hab.subset (List.mem_cons_self a [b])
    have hb := hab.subset (List.mem_cons_of_mem a (List.mem_cons_self b []))
    exact hp a b (List.of_mem_filter ha) (List.of_mem_filter hb)
  have hsub : (l.filter p).Sublist (l.insertionSort r) :=
    List.sublist_insertionSort hc (List.filter_sublist l)
  have hself : (l.filter p).filter p = l.filter p :=
    List.filter_eq_self.mpr (fun a ha => List.of_mem_filter ha)
  have h2 : (l.filter p).Sublist ((l.insertionSort r).filter p) := by
    have := List.Sublist.filter p hsub
    rwa [hself] at this
  have hlen : ((l.insertionSort r).filter p).length = (l.filter p).length :=
    ((List.perm_insertionSort r l).filter p).length_eq
  exact (h2.eq_of_length hlen.symm).symm

/-! ### Truncator (internal/review/truncate.go) -/

def DefaultMaxIssues : Int := 50

def DefaultMaxQuestions : Int := 20

/-- Synthetic WARN issue appended by Truncate when a list was cut. -/
def truncIssue : Issue :=
  { ID := "ISSUE-TRUNC"
    Severity := SeverityWarn
    Category := CategoryAmbiguity
    Title := "Output truncated"
    Description := "The number of issues or questions exceeded the configured limits. Increase limits to see all results."
    Evidence := [⟨ "plan", "plan", 1, 1, "(truncation notice)" ⟩]
    Impact := ""
    Recommendation := "Re-run with higher limits."
    Blocking := false
    Tags := [] }

/-- Truncate caps issues and questions to the given limits; if either list
exceeded its limit a synthetic WARN issue is appended. -/
def Truncate (r : Review) (maxIssues maxQuestions : Int) : Review :=
  let maxI := if maxIssues ≤ 0 then DefaultMaxIssues else maxIssues
  let maxQ := if maxQuestions ≤ 0 then DefaultMaxQuestions else maxQuestions
  let cutI : Bool := decide ((r.Issues.length : Int) > maxI)
  let cutQ : Bool := decide ((r.Questions.length : Int) > maxQ)
  let issues1 := if cutI then r.Issues.take (maxI - 1).toNat else r.Issues
  let questions1 := if cutQ then r.Questions.take maxQ.toNat else r.Questions
  let issues2 := if cutI || cutQ then issues1 ++ [truncIssue] else issues1
  { r with Issues := issues2, Questions := questions1 }

/-! ### Grounding checker and downgrader (internal/review/grounding.go) -/

/-- Fabrication-indicating phrases scanned by CheckGrounding. -/
def fabricationPhrases : List String :=
  ["the codebase uses", "the repository contains", "the existing implementation",
   "currently the system", "as seen in the source", "the project\x27s",
   "the current codebase", "looking at the code", "in the source code",
   "the existing code"]

/-- Substring test on character lists (model of Go strings.Contains). -/
def listContains (s sub : List Char) : Bool :=
  match s with
  | [] => sub.isEmpty
  | c :: t => sub.isPrefixOf (c :: t) || listContains t sub

/-- Model of Go strings.Contains on strings. -/
def strContains (s sub : String) : Bool :=
  listContains s.data sub.data

/-- Model of Go strings.ToLower: per-character lower-casing (the scanned
fabrication phrases are ASCII). -/
def strToLower (s : String) : String := String.mk (s.data.map Char.toLower)

/-- GroundingViolation records a potential fabrication in an issue. -/
structure GroundingViolation where
  IssueID : String
  Field : String
  Phrase : String
deriving DecidableEq, Repr

/-- Violations of one scanned text field: one record per matching phrase,
in phrase-list order (inner loop of CheckGrounding). -/
def phraseViolations (id fieldName text : String) : List GroundingViolation :=
  let lower := strToLower text
  fabricationPhrases.flatMap
    (fun phrase => if strContains lower phrase then [⟨ id, fieldName, phrase ⟩] else [])

/-- Violations contributed by one issue (fields scanned in source order). -/
def checkGroundingIssue (iss : Issue) : List GroundingViolation :=
  phraseViolations iss.ID "description" iss.Description ++
  phraseViolations iss.ID "impact" iss.Impact ++
  phraseViolations iss.ID "recommendation" iss.Recommendation

/-- Violations contributed by one question (fields scanned in source order). -/
def checkGroundingQuestion (q : Question) : List GroundingViolation :=
  phraseViolations q.ID "question" q.Question ++
  phraseViolations q.ID "why_needed" q.WhyNeeded

def checkGroundingIssues : List Issue → List GroundingViolation
  | [] => []
  | iss :: rest => checkGroundingIssue iss ++ checkGroundingIssues rest

def checkGroundingQuestions : List Question → List GroundingViolation
  | [] => []
  | q :: rest => checkGroundingQuestion q ++ checkGroundingQuestions rest

/-- CheckGrounding scans issue and question text fields for phrases
suggesting fabricated repo knowledge. -/
def CheckGrounding (r : Review) : List GroundingViolation :=
  checkGroundingIssues r.Issues ++ checkGroundingQuestions r.Questions

/-- Last index of an issue with the given ID, searching from offset k.
Models the Go `issueMap` built by iterating `issueMap[ID] = &r.Issues[i]`
for i ascending: a later index overwrites an earlier one. -/
def lastIdxFrom : List Issue → String → Nat → Option Nat
  | [], _, _ => none
  | iss :: rest, id, k =>
    match lastIdxFrom rest id (k + 1) with
    | some j => some j
    | none => if iss.ID = id then some k else none

def buildIssueMap (issues : List Issue) (id : String) : Option Nat :=
  lastIdxFrom issues id 0

/-- Mutation applied to one violated issue: add the UNVERIFIED tag if not
already present, downgrade CRITICAL to WARN. -/
def downgradeIssue (iss : Issue) : Issue :=
  let tags := if "UNVERIFIED" ∈ iss.Tags then iss.Tags else iss.Tags ++ ["UNVERIFIED"]
  let sev := if iss.Severity = SeverityCritical then SeverityWarn else iss.Severity
  { iss with Tags := tags, Severity := sev }

/-- Loop of ApplyGroundingDowngrades: walk the violation list, processing
each resolvable issue ID at most once (the `downgraded` set). -/
def applyLoop (m : String → Option Nat) :
    List GroundingViolation → List Issue → List String → List Issue
  | [], issues, _ => issues
  | v :: rest, issues, downgraded =>
    match m v.IssueID with
    | none => applyLoop m rest issues downgraded
    | some i =>
      if v.IssueID ∈ downgraded then applyLoop m rest issues downgraded
      else applyLoop m rest (issues.set i (downgradeIssue (issues.getD i defaultIssue)))
        (v.IssueID :: downgraded)

/-- ApplyGroundingDowngrades marks issues with the UNVERIFIED tag and
downgrades CRITICAL to WARN, once per distinct violated issue ID. -/
def ApplyGroundingDowngrades (r : Review) (violations : List GroundingViolation) : Review :=
  { r with Issues := applyLoop (buildIssueMap r.Issues) violations r.Issues [] }

/-! ### Schema validator (internal/schema/validate.go) -/

/-- ValidationError describes a single schema violation. -/
structure ValidationError where
  Path : String
  Message : String
deriving DecidableEq, Repr

/-- Model of the %q verb used in validation messages (escaping of special
characters inside the value is not modelled). -/
def goQuote (s : String) : String := "\"" ++ s ++ "\""

/-- Evidence checks, from validateEvidence in validate.go: each violated
rule contributes one error, with no short-circuiting. -/
def validateEvidence (pfx : String) (ev : Evidence) (planLineCount : Int) :
    List ValidationError :=
  (if ev.Source ≠ "plan" ∧ ev.Source ≠ "context" then
    [⟨ pfx ++ ".source", "must be \x27plan\x27 or \x27context\x27, got " ++ goQuote ev.Source ⟩]
  else []) ++
  (if ev.Path = "" then [⟨ pfx ++ ".path", "required" ⟩] else []) ++
  (if ev.LineStart < 1 then [⟨ pfx ++ ".line_start", "must be >= 1" ⟩] else []) ++
  (if ev.LineEnd < ev.LineStart then
    [⟨ pfx ++ ".line_end", "must be >= line_start" ⟩]
  else []) ++
  (if planLineCount > 0 ∧ ev.Source = "plan" ∧ ev.LineEnd > planLineCount then
    [⟨ pfx ++ ".line_end", "exceeds plan line count (" ++ toString planLineCount ++ ")" ⟩]
  else []) ++
  (if ev.Quote = "" then [⟨ pfx ++ ".quote", "required" ⟩] else [])

/-- Inner evidence loop of Validate, j the running evidence index. -/
def validateEvidences (pfx : String) (planLineCount : Int) :
    Nat → List Evidence → List ValidationError
  | _, [] => []
  | j, ev :: rest =>
    validateEvidence (pfx ++ ".evidence[" ++ toString j ++ "]") ev planLineCount ++
    validateEvidences pfx planLineCount (j + 1) rest

/-- Issue loop of Validate; `seen` is the issueIDs set used for duplicate
detection (an ID is added only on its first non-empty occurrence). -/
def validateIssues (planLineCount : Int) :
    Nat → List String → List Issue → List ValidationError
  | _, _, [] => []
  | i, seen, iss :: rest =>
    let pfx := "issues[" ++ toString i ++ "]"
    let idStep : List ValidationError × List String :=
      if iss.ID = "" then ([⟨ pfx ++ ".id", "required" ⟩], seen)
      else if iss.ID ∈ seen then
        ([⟨ pfx ++ ".id", "duplicate ID: " ++ goQuote iss.ID ⟩], seen)
      else ([], iss.ID :: seen)
    idStep.1 ++
    (if ¬ severityValid iss.Severity then
      [⟨ pfx ++ ".severity", "invalid: " ++ goQuote iss.Severity ⟩] else []) ++
    (if ¬ categoryValid iss.Category then
      [⟨ pfx ++ ".category", "invalid: " ++ goQuote iss.Category ⟩] else []) ++
    (if iss.Title = "" then [⟨ pfx ++ ".title", "required" ⟩] else []) ++
    (if iss.Description = "" then [⟨ pfx ++ ".description", "required" ⟩] else []) ++
    (if iss.Evidence.length = 0 then
      [⟨ pfx ++ ".evidence", "at least one evidence entry required" ⟩] else []) ++
    validateEvidences pfx planLineCount 0 iss.Evidence ++
    validateIssues planLineCount (i + 1) idStep.2 rest

/-- Question loop of Validate, mirroring the issue loop. -/
def validateQuestions (planLineCount : Int) :
    Nat → List String → List Question → List ValidationError
  | _, _, [] => []
  | i, seen, q :: rest =>
    let pfx := "questions[" ++ toString i ++ "]"
    let idStep : List ValidationError × List String :=
      if q.ID = "" then ([⟨ pfx ++ ".id", "required" ⟩], seen)
      else if q.ID ∈ seen then
        ([⟨ pfx ++ ".id", "duplicate ID: " ++ goQuote q.ID ⟩], seen)
      else ([], q.ID :: seen)
    idStep.1 ++
    (if ¬ severityValid q.Severity then
      [⟨ pfx ++ ".severity", "invalid: " ++ goQuote q.Severity ⟩] else []) ++
    (if q.Question = "" then [⟨ pfx ++ ".question", "required" ⟩] else []) ++
    (if q.WhyNeeded = "" then [⟨ pfx ++ ".why_needed", "required" ⟩] else []) ++
    (if q.Evidence.length = 0 then
      [⟨ pfx ++ ".evidence", "at least one evidence entry required" ⟩] else []) ++
    validateEvidences pfx planLineCount 0 q.Evidence ++
    validateQuestions planLineCount (i + 1) idStep.2 rest

/-- Patch loop of Validate. -/
def validatePatches : Nat → List Patch → List ValidationError
  | _, [] => []
  | i, p :: rest =>
    let pfx := "patches[" ++ toString i ++ "]"
    (if p.ID = "" then [⟨ pfx ++ ".id", "required" ⟩] else []) ++
    (if ¬ patchTypeValid p.«Type» then
      [⟨ pfx ++ ".type", "invalid: " ++ goQuote p.«Type» ⟩] else []) ++
    (if p.Title = "" then [⟨ pfx ++ ".title", "required" ⟩] else []) ++
    (if p.DiffUnified = "" then [⟨ pfx ++ ".diff_unified", "required" ⟩] else []) ++
    validatePatches (i + 1) rest

/-- Validate checks a Review for structural validity; planLineCount 0 skips
the plan line-range checks.  The severity tallies of the Go loop are the
countP forms proved equal to the summary loop above. -/
def Validate (r : Review) (planLineCount : Int) : List ValidationError :=
  (if r.Tool = "" then [⟨ "tool", "required" ⟩] else []) ++
  (if r.Version = "" then [⟨ "version", "required" ⟩] else []) ++
  (if ¬ verdictValid r.Summary.Verdict then
    [⟨ "summary.verdict", "invalid verdict: " ++ goQuote r.Summary.Verdict ⟩] else []) ++
  (if r.Summary.Score ≠ ComputeScore r.Issues then
    [⟨ "summary.score", "score " ++ toString r.Summary.Score ++
        " does not match computed " ++ toString (ComputeScore r.Issues) ⟩] else []) ++
  (if r.Summary.CriticalCount ≠ (countCrit r.Issues : Int) then
    [⟨ "summary.critical_count", "expected " ++ toString (countCrit r.Issues) ++
        ", got " ++ toString r.Summary.CriticalCount ⟩] else []) ++
  (if r.Summary.WarnCount ≠ (countWarn r.Issues : Int) then
    [⟨ "summary.warn_count", "expected " ++ toString (countWarn r.Issues) ++
        ", got " ++ toString r.Summary.WarnCount ⟩] else []) ++
  (if r.Summary.InfoCount ≠ (countInfo r.Issues : Int) then
    [⟨ "summary.info_count", "expected " ++ toString (countInfo r.Issues) ++
        ", got " ++ toString r.Summary.InfoCount ⟩] else []) ++
  validateIssues planLineCount 0 [] r.Issues ++
  validateQuestions planLineCount 0 [] r.Questions ++
  validatePatches 0 r.Patches

/-! ### Orchestration (cmd/plancritic/check.go, steps 9 to 11)

The provider and the JSON decoder are external: an attempt is modelled by
the `Option Review` its text yielded under json.Unmarshal (`none` = the
text did not parse as the Review structure).  `runCheckValidation` is the
control flow of steps 9 and 10; the Nat component counts provider
invocations (the first call already happened, the repair call adds one). -/

inductive CheckOutcome where
  | parseError1 : CheckOutcome
  | repairParseError : CheckOutcome
  | repairSchemaError : List ValidationError → CheckOutcome
  | validated : Review → CheckOutcome
deriving DecidableEq, Repr

def runCheckValidation (first repair : Option Review) (planLineCount : Int) :
    CheckOutcome × Nat :=
  match first with
  | none => (CheckOutcome.parseError1, 1)
  | some rev =>
    let errs := Validate rev planLineCount
    if errs.isEmpty then (CheckOutcome.validated rev, 1)
    else
      match repair with
      | none => (CheckOutcome.repairParseError, 2)
      | some rev2 =>
        let errs2 := Validate rev2 planLineCount
        if errs2.isEmpty then (CheckOutcome.validated rev2, 2)
        else (CheckOutcome.repairSchemaError errs2, 2)

/-- Summary overwrite of check.go line 216: the LLM summary is replaced
by the deterministic recomputation. -/
def postSummary (r : Review) : Review := { r with Summary := ComputeSummary r.Issues }

/-- Sorting stage of check.go lines 217 and 218. -/
def postSort (r : Review) : Review :=
  { r with Issues := SortIssues r.Issues, Questions := SortQuestions r.Questions }

/-- Strict-grounding block of check.go lines 222 to 231: when violations
exist, downgrade, recompute the summary, and re-sort the issues. -/
def postGround (r : Review) : Review :=
  let violations := CheckGrounding r
  if violations.length > 0 then
    let r4 := ApplyGroundingDowngrades r violations
    let r5 := { r4 with Summary := ComputeSummary r4.Issues }
    { r5 with Issues := SortIssues r5.Issues }
  else r

/-- Deterministic post-processing of a validated review with strict
grounding enabled (check.go step 11, lines 214 to 231). -/
def postProcessStrict (r : Review) : Review :=
  postGround (Truncate (postSort (postSummary r)) DefaultMaxIssues DefaultMaxQuestions)

/-! ### Lemmas on the grounding downgrader -/

lemma downgradeIssue_ID (iss : Issue) : (downgradeIssue iss).ID = iss.ID := rfl

lemma downgradeIssue_Description (iss : Issue) :
    (downgradeIssue iss).Description = iss.Description := rfl

lemma downgradeIssue_Impact (iss : Issue) : (downgradeIssue iss).Impact = iss.Impact := rfl

lemma downgradeIssue_Recommendation (iss : Issue) :
    (downgradeIssue iss).Recommendation = iss.Recommendation := rfl

lemma downgradeIssue_mem_tag (iss : Issue) : "UNVERIFIED" ∈ (downgradeIssue iss).Tags := by
  unfold downgradeIssue
  by_cases h : "UNVERIFIED" ∈ iss.Tags <;> simp [h]

lemma downgradeIssue_not_critical (iss : Issue) :
    (downgradeIssue iss).Severity ≠ SeverityCritical := by
  have hws : ¬ SeverityWarn = SeverityCritical := by decide
  unfold downgradeIssue
  by_cases h : iss.Severity = SeverityCritical
  · simp [h, hws]
  · simp [h]

lemma downgradeIssue_idem (iss : Issue) :
    downgradeIssue (downgradeIssue iss) = downgradeIssue iss := by
  have hws : ¬ SeverityWarn = SeverityCritical := by decide
  unfold downgradeIssue
  by_cases ht : "UNVERIFIED" ∈ iss.Tags <;> by_cases hs : iss.Severity = SeverityCritical <;>
    simp [ht, hs, hws]

lemma downgradeIssue_warn (iss : Issue) (h : iss.Severity ≠ SeverityCritical) :
    (downgradeIssue iss).Severity = iss.Severity := by
  unfold downgradeIssue
  simp [h]

lemma downgradeIssue_crit_to_warn (iss : Issue) (h : iss.Severity = SeverityCritical) :
    (downgradeIssue iss).Severity = SeverityWarn := by
  unfold downgradeIssue
  simp [h]

/-- Well-formedness of an ID-to-index map over an issue list. -/
def mapWF (m : String → Option Nat) (issues : List Issue) : Prop :=
  ∀ id i, m id = some i → i < issues.length ∧ (issues.getD i defaultIssue).ID = id

lemma lastIdxFrom_spec : ∀ (l : List Issue) (id : String) (k j : Nat),
    lastIdxFrom l id k = some j →
      k ≤ j ∧ j - k < l.length ∧ (l.getD (j - k) defaultIssue).ID = id := by
  intro l
  induction l with
  | nil => intro id k j h; simp [lastIdxFrom] at h
  | cons iss rest ih =>
    intro id k j h
    cases hrec : lastIdxFrom rest id (k + 1) with
    | some jr =>
      simp only [lastIdxFrom, hrec, Option.some.injEq] at h
      subst h
      obtain ⟨ h1, h2, h3 ⟩ := ih id (k + 1) jr hrec
      refine ⟨ by omega, by simp; omega, ?_ ⟩
      have hj : jr - k = (jr - (k + 1)) + 1 := by omega
      rw [hj, List.getD_cons_succ]
      exact h3
    | none =>
      simp only [lastIdxFrom, hrec] at h
      by_cases hid : iss.ID = id
      · rw [if_pos hid] at h
        cases h
        refine ⟨ le_refl k, by simp, ?_ ⟩
        simp [hid]
      · rw [if_neg hid] at h
        cases h

lemma buildIssueMap_wf (issues : List Issue) : mapWF (buildIssueMap issues) issues := by
  intro id i h
  obtain ⟨ h1, h2, h3 ⟩ := lastIdxFrom_spec issues id 0 i h
  simp only [Nat.sub_zero] at h2 h3
  exact ⟨ h2, h3 ⟩

lemma getD_set_ne (l : List Issue) (j i : Nat) (a : Issue) (hij : j ≠ i) :
    (l.set j a).getD i defaultIssue = l.getD i defaultIssue := by
  by_cases hi : i < l.length
  · rw [List.getD_eq_getElem _ _ (by simpa using hi), List.getD_eq_getElem _ _ hi]
    exact List.getElem_set_ne hij _
  · rw [List.getD_eq_default _ _ (by simpa using Nat.le_of_not_lt hi),
      List.getD_eq_default _ _ (Nat.le_of_not_lt hi)]

lemma getD_set_self (l : List Issue) (j : Nat) (a : Issue) (hj : j < l.length) :
    (l.set j a).getD j defaultIssue = a := by
  rw [List.getD_eq_getElem _ _ (by simpa using hj)]
  exact List.getElem_set_self _

lemma mapWF_set (m : String → Option Nat) (issues : List Issue)
    (h : mapWF m issues) (i : Nat) :
    mapWF m (issues.set i (downgradeIssue (issues.getD i defaultIssue))) := by
  intro id j hj
  obtain ⟨ hlt, hid ⟩ := h id j hj
  refine ⟨ by simpa using hlt, ?_ ⟩
  by_cases hij : i = j
  · subst hij
    rw [getD_set_self _ _ _ hlt, downgradeIssue_ID]
    exact hid
  · rw [getD_set_ne _ _ _ _ hij]
    exact hid

lemma applyLoop_length (m : String → Option Nat) :
    ∀ (vs : List GroundingViolation) (issues : List Issue) (d : List String),
      (applyLoop m vs issues d).length = issues.length := by
  intro vs
  induction vs with
  | nil => intro issues d; rfl
  | cons v rest ih =>
    intro issues d
    cases hm : m v.IssueID with
    | none => simp only [applyLoop, hm]; exact ih issues d
    | some j =>
      simp only [applyLoop, hm]
      by_cases hd : v.IssueID ∈ d
      · rw [if_pos hd]; exact ih issues d
      · rw [if_neg hd]
        rw [ih]
        exact List.length_set issues j _

lemma applyLoop_getD_neg (m : String → Option Nat) :
    ∀ (vs : List GroundingViolation) (issues : List Issue) (d : List String) (i : Nat),
      (¬ ∃ v ∈ vs, m v.IssueID = some i ∧ v.IssueID ∉ d) →
      (applyLoop m vs issues d).getD i defaultIssue = issues.getD i defaultIssue := by
  intro vs
  induction vs with
  | nil => intro issues d i _; rfl
  | cons v rest ih =>
    intro issues d i h
    cases hm : m v.IssueID with
    | none =>
      simp only [applyLoop, hm]
      exact ih issues d i
        (fun ⟨ v2, hv2, hm2, hd2 ⟩ => h ⟨ v2, List.mem_cons_of_mem v hv2, hm2, hd2 ⟩)
    | some j =>
      simp only [applyLoop, hm]
      by_cases hd : v.IssueID ∈ d
      · rw [if_pos hd]
        exact ih issues d i
          (fun ⟨ v2, hv2, hm2, hd2 ⟩ => h ⟨ v2, List.mem_cons_of_mem v hv2, hm2, hd2 ⟩)
      · rw [if_neg hd]
        have hji : j ≠ i := by
          intro hji
          exact h ⟨ v, List.mem_cons_self v rest, by rw [hm, hji], hd ⟩
        rw [ih _ _ i ?_, getD_set_ne _ _ _ _ hji]
        rintro ⟨ v2, hv2, hm2, hd2 ⟩
        exact h ⟨ v2, List.mem_cons_of_mem v hv2, hm2,
          fun hmem => hd2 (List.mem_cons_of_mem _ hmem) ⟩

lemma applyLoop_getD_pos (m : String → Option Nat) :
    ∀ (vs : List GroundingViolation) (issues : List Issue) (d : List String) (i : Nat),
      mapWF m issues →
      (∃ v ∈ vs, m v.IssueID = some i ∧ v.IssueID ∉ d) →
      (applyLoop m vs issues d).getD i defaultIssue =
        downgradeIssue (issues.getD i defaultIssue) := by
  intro vs
  induction vs with
  | nil => rintro issues d i _ ⟨ v, hv, _, _ ⟩; exact absurd hv (List.not_mem_nil v)
  | cons v rest ih =>
    rintro issues d i hwf ⟨ v2, hv2, hm2, hd2 ⟩
    cases hm : m v.IssueID with
    | none =>
      simp only [applyLoop, hm]
      rcases List.mem_cons.mp hv2 with h2 | h2
      · subst h2; rw [hm] at hm2; cases hm2
      · exact ih issues d i hwf ⟨ v2, h2, hm2, hd2 ⟩
    | some j =>
      simp only [applyLoop, hm]
      by_cases hd : v.IssueID ∈ d
      · rw [if_pos hd]
        rcases List.mem_cons.mp hv2 with h2 | h2
        · subst h2; exact absurd hd hd2
        · exact ih issues d i hwf ⟨ v2, h2, hm2, hd2 ⟩
      · rw [if_neg hd]
        by_cases hij : i = j
        · subst hij
          have hlt : i < issues.length := (hwf v.IssueID i hm).1
          rw [applyLoop_getD_neg m rest _ _ i ?_, getD_set_self _ _ _ hlt]
          rintro ⟨ v3, hv3, hm3, hd3 ⟩
          apply hd3
          have hid3 : (issues.getD i defaultIssue).ID = v3.IssueID := (hwf v3.IssueID i hm3).2
          have hidv : (issues.getD i defaultIssue).ID = v.IssueID := (hwf v.IssueID i hm).2
          rw [← hid3, hidv]
          exact List.mem_cons_self _ _
        · have hwitness : v2 ∈ rest := by
            rcases List.mem_cons.mp hv2 with h2 | h2
            · subst h2; rw [hm] at hm2; cases hm2; exact absurd rfl hij
            · exact h2
          have hne : v2.IssueID ≠ v.IssueID := by
            intro heq
            rw [heq, hm] at hm2
            cases hm2
            exact hij rfl
          rw [ih _ _ i (mapWF_set m issues hwf j)
            ⟨ v2, hwitness, hm2, fun hmem => ?_ ⟩, getD_set_ne _ _ _ _ (fun hji => hij hji.symm)]
          rcases List.mem_cons.mp hmem with h3 | h3
          · exact hne h3
          · exact hd2 h3

lemma list_eq_of_getD (l1 l2 : List Issue) (hlen : l1.length = l2.length)
    (h : ∀ i, l1.getD i defaultIssue = l2.getD i defaultIssue) : l1 = l2 := by
  apply List.ext_getElem hlen
  intro n h1 h2
  have hn := h n
  rwa [List.getD_eq_getElem _ _ h1, List.getD_eq_getElem _ _ h2] at hn

lemma map_eq_of_getD {α : Type} (f : Issue → α) :
    ∀ (l1 l2 : List Issue), l1.length = l2.length →
      (∀ i, f (l1.getD i defaultIssue) = f (l2.getD i defaultIssue)) →
      l1.map f = l2.map f := by
  intro l1
  induction l1 with
  | nil =>
    intro l2 hlen _
    cases l2 with
    | nil => rfl
    | cons b t2 => simp at hlen
  | cons a t ih =>
    intro l2 hlen h
    cases l2 with
    | nil => simp at hlen
    | cons b t2 =>
      simp only [List.map_cons]
      have h0 := h 0
      simp only [List.getD_cons_zero] at h0
      rw [h0, ih t2 (by simpa using hlen)
        (fun i => by have hi := h (i + 1); simpa only [List.getD_cons_succ] using hi)]

lemma checkGroundingIssues_eq (l : List Issue) :
    checkGroundingIssues l = (l.map checkGroundingIssue).flatten := by
  induction l with
  | nil => rfl
  | cons a t ih => simp only [checkGroundingIssues, List.map_cons, List.flatten_cons, ih]

lemma checkGroundingIssue_downgrade (iss : Issue) :
    checkGroundingIssue (downgradeIssue iss) = checkGroundingIssue iss := by
  unfold checkGroundingIssue
  rw [downgradeIssue_ID, downgradeIssue_Description, downgradeIssue_Impact,
    downgradeIssue_Recommendation]

lemma checkGrounding_congr (r1 r2 : Review) (hq : r1.Questions = r2.Questions)
    (hlen : r1.Issues.length = r2.Issues.length)
    (h : ∀ i, checkGroundingIssue (r1.Issues.getD i defaultIssue) =
      checkGroundingIssue (r2.Issues.getD i defaultIssue)) :
    CheckGrounding r1 = CheckGrounding r2 := by
  unfold CheckGrounding
  rw [hq, checkGroundingIssues_eq, checkGroundingIssues_eq,
    map_eq_of_getD checkGroundingIssue _ _ hlen h]

lemma lastIdxFrom_congr : ∀ (l1 l2 : List Issue) (id : String) (k : Nat),
    l1.map (fun x => x.ID) = l2.map (fun x => x.ID) →
    lastIdxFrom l1 id k = lastIdxFrom l2 id k := by
  intro l1
  induction l1 with
  | nil =>
    intro l2 id k h
    cases l2 with
    | nil => rfl
    | cons b t2 => simp at h
  | cons a t ih =>
    intro l2 id k h
    cases l2 with
    | nil => simp at h
    | cons b t2 =>
      simp only [List.map_cons, List.cons.injEq] at h
      obtain ⟨ hab, ht ⟩ := h
      simp only [lastIdxFrom]
      rw [ih t2 id (k + 1) ht, hab]

/-- C8: applying CheckGrounding followed by ApplyGroundingDowngrades twice
in sequence produces the same final review state as applying the pair once:
tags are not duplicated and a severity already downgraded to WARN is not
downgraded further. -/
theorem c8_grounding_downgrade_idempotent (r : Review) :
    ApplyGroundingDowngrades (ApplyGroundingDowngrades r (CheckGrounding r))
      (CheckGrounding (ApplyGroundingDowngrades r (CheckGrounding r))) =
    ApplyGroundingDowngrades r (CheckGrounding r) := by
  have hwf := buildIssueMap_wf r.Issues
  set r1 := ApplyGroundingDowngrades r (CheckGrounding r) with hr1
  have hlen1 : r1.Issues.length = r.Issues.length := applyLoop_length _ _ _ _
  have hcases : ∀ i, r1.Issues.getD i defaultIssue =
      downgradeIssue (r.Issues.getD i defaultIssue) ∨
      r1.Issues.getD i defaultIssue = r.Issues.getD i defaultIssue := by
    intro i
    by_cases hp : ∃ v ∈ CheckGrounding r,
        buildIssueMap r.Issues v.IssueID = some i ∧ v.IssueID ∉ ([] : List String)
    · exact Or.inl (applyLoop_getD_pos _ _ _ _ _ hwf hp)
    · exact Or.inr (applyLoop_getD_neg _ _ _ _ _ hp)
  have hID : r1.Issues.map (fun x => x.ID) = r.Issues.map (fun x => x.ID) :=
    map_eq_of_getD _ _ _ hlen1 (fun i => by
      rcases hcases i with h | h <;> rw [h]
      rw [downgradeIssue_ID])
  have hCG : CheckGrounding r1 = CheckGrounding r := by
    refine checkGrounding_congr r1 r rfl hlen1 (fun i => ?_)
    rcases hcases i with h | h <;> rw [h]
    rw [checkGroundingIssue_downgrade]
  have hm : buildIssueMap r1.Issues = buildIssueMap r.Issues :=
    funext (fun id => lastIdxFrom_congr _ _ id 0 hID)
  have hwf1 : mapWF (buildIssueMap r.Issues) r1.Issues := by
    intro id i h
    obtain ⟨ h1, h2 ⟩ := hwf id i h
    refine ⟨ by rwa [hlen1], ?_ ⟩
    rcases hcases i with hc | hc
    · rw [hc, downgradeIssue_ID]; exact h2
    · rw [hc]; exact h2
  have hloop : applyLoop (buildIssueMap r1.Issues) (CheckGrounding r1) r1.Issues [] =
      r1.Issues := by
    rw [hm, hCG]
    apply list_eq_of_getD _ _ (applyLoop_length _ _ _ _)
    intro i
    by_cases hp : ∃ v ∈ CheckGrounding r,
        buildIssueMap r.Issues v.IssueID = some i ∧ v.IssueID ∉ ([] : List String)
    · rw [applyLoop_getD_pos _ _ _ _ _ hwf1 hp]
      have h1 : r1.Issues.getD i defaultIssue =
          downgradeIssue (r.Issues.getD i defaultIssue) :=
        applyLoop_getD_pos _ _ _ _ _ hwf hp
      rw [h1, downgradeIssue_idem]
    · exact applyLoop_getD_neg _ _ _ _ _ hp
  have hfin : ApplyGroundingDowngrades r1 (CheckGrounding r1) = { r1 with Issues := r1.Issues } := by
    unfold ApplyGroundingDowngrades
    rw [hloop]
  exact hfin

/-! ### Closed forms of scorer and summary, and the score/summary claims -/

/-- Closed form of ComputeSummary in terms of severity counts. -/
lemma computeSummary_eq (issues : List Issue) :
    ComputeSummary issues =
      { Verdict :=
          if issues.any isBlockingCritical then VerdictNotExecutable
          else if (countCrit issues : Int) > 0 || (countWarn issues : Int) > 0 then
            VerdictWithClarifications
          else VerdictExecutable
        Score := ComputeScore issues
        CriticalCount := (countCrit issues : Int)
        WarnCount := (countWarn issues : Int)
        InfoCount := (countInfo issues : Int) } := by
  unfold ComputeSummary
  rw [summaryFoldl]
  simp

def critIssue : Issue := { defaultIssue with Severity := SeverityCritical }

def warnIssue : Issue := { defaultIssue with Severity := SeverityWarn }

def infoIssue : Issue := { defaultIssue with Severity := SeverityInfo }

/-- C4: ComputeScore returns 100 minus 20 per CRITICAL, 7 per WARN, 2 per
INFO, clamped to [0,100]; with the concrete values of the spec. -/
theorem c4_compute_score_formula :
    (∀ issues : List Issue,
      ComputeScore issues =
        max 0 (min 100 (100 - 20 * (countCrit issues : Int) -
          7 * (countWarn issues : Int) - 2 * (countInfo issues : Int)))) ∧
    ComputeScore [] = 100 ∧
    ComputeScore [critIssue] = 80 ∧
    ComputeScore [warnIssue] = 93 ∧
    ComputeScore [infoIssue] = 98 ∧
    ComputeScore [critIssue, critIssue, warnIssue, infoIssue] = 51 ∧
    ComputeScore (List.replicate 6 critIssue) = 0 := by
  refine ⟨ fun issues => ?_, by decide, by decide, by decide, by decide, by decide, by decide ⟩
  rw [computeScore_eq]
  omega

/-- C9: ComputeScore never increases when an issue of any severity is
appended, and is always within [0,100]. -/
theorem c9_score_monotone_bounded :
    (∀ (issues : List Issue) (iss : Issue),
      ComputeScore (issues ++ [iss]) ≤ ComputeScore issues) ∧
    (∀ issues : List Issue, 0 ≤ ComputeScore issues ∧ ComputeScore issues ≤ 100) := by
  constructor
  · intro issues iss
    rw [computeScore_eq, computeScore_eq]
    simp only [countCrit, countWarn, countInfo, List.countP_append]
    push_cast
    omega
  · intro issues
    rw [computeScore_eq]
    omega

/-- C10: an issue whose Severity is none of INFO, WARN, CRITICAL is
invisible to ComputeScore and ComputeSummary, wherever it sits in the
list; in particular it never forces NOT_EXECUTABLE even when Blocking. -/
theorem c10_invalid_severity_invisible (l1 l2 : List Issue) (iss : Issue)
    (h1 : iss.Severity ≠ SeverityInfo) (h2 : iss.Severity ≠ SeverityWarn)
    (h3 : iss.Severity ≠ SeverityCritical) :
    ComputeScore (l1 ++ iss :: l2) = ComputeScore (l1 ++ l2) ∧
    ComputeSummary (l1 ++ iss :: l2) = ComputeSummary (l1 ++ l2) := by
  have hcc : countCrit (l1 ++ iss :: l2) = countCrit (l1 ++ l2) := by
    simp [countCrit, List.countP_append, List.countP_cons, h3]
  have hcw : countWarn (l1 ++ iss :: l2) = countWarn (l1 ++ l2) := by
    simp [countWarn, List.countP_append, List.countP_cons, h2]
  have hci : countInfo (l1 ++ iss :: l2) = countInfo (l1 ++ l2) := by
    simp [countInfo, List.countP_append, List.countP_cons, h1]
  have hbc : (l1 ++ iss :: l2).any isBlockingCritical = (l1 ++ l2).any isBlockingCritical := by
    simp [List.any_append, List.any_cons, isBlockingCritical, h3]
  have hsc : ComputeScore (l1 ++ iss :: l2) = ComputeScore (l1 ++ l2) := by
    rw [computeScore_eq, computeScore_eq, hcc, hcw, hci]
  refine ⟨ hsc, ?_ ⟩
  rw [computeSummary_eq, computeSummary_eq, hcc, hcw, hci, hbc, hsc]

/-- C10 witness: a severity outside the enum (with Blocking set) changes
neither score nor summary. -/
theorem c10_invalid_severity_invisible_witness :
    ComputeScore [critIssue, { defaultIssue with Severity := "HIGH", Blocking := true }] =
      ComputeScore [critIssue] ∧
    ComputeSummary [critIssue, { defaultIssue with Severity := "HIGH", Blocking := true }] =
      ComputeSummary [critIssue] := by
  have h := c10_invalid_severity_invisible [critIssue] []
    { defaultIssue with Severity := "HIGH", Blocking := true }
    (by decide) (by decide) (by decide)
  exact h

/-- C5: ComputeSummary derives the verdict from blocking-critical and
critical-or-warn existence, always recomputes the score, and tallies each
severity. -/
theorem c5_compute_summary (issues : List Issue) :
    (ComputeSummary issues).Verdict =
      (if ∃ iss ∈ issues, iss.Severity = SeverityCritical ∧ iss.Blocking = true then
        VerdictNotExecutable
      else if ∃ iss ∈ issues, iss.Severity = SeverityCritical ∨ iss.Severity = SeverityWarn then
        VerdictWithClarifications
      else VerdictExecutable) ∧
    (ComputeSummary issues).Score = ComputeScore issues ∧
    (ComputeSummary issues).CriticalCount =
      ((issues.filter (fun iss => iss.Severity = SeverityCritical)).length : Int) ∧
    (ComputeSummary issues).WarnCount =
      ((issues.filter (fun iss => iss.Severity = SeverityWarn)).length : Int) ∧
    (ComputeSummary issues).InfoCount =
      ((issues.filter (fun iss => iss.Severity = SeverityInfo)).length : Int) := by
  rw [computeSummary_eq]
  refine ⟨ ?_, rfl, ?_, ?_, ?_ ⟩
  · by_cases hbc : ∃ iss ∈ issues, iss.Severity = SeverityCritical ∧ iss.Blocking = true
    · have hany : issues.any isBlockingCritical = true := by
        obtain ⟨ a, ha, hs, hb ⟩ := hbc
        exact List.any_eq_true.mpr ⟨ a, ha, by simp [isBlockingCritical, hs, hb] ⟩
      simp [hany, hbc]
    · have hany : issues.any isBlockingCritical = false := by
        rw [← Bool.not_eq_true, List.any_eq_true]
        rintro ⟨ a, ha, hp ⟩
        simp only [isBlockingCritical, Bool.and_eq_true, decide_eq_true_eq] at hp
        exact hbc ⟨ a, ha, hp.1, hp.2 ⟩
      by_cases hcw : ∃ iss ∈ issues, iss.Severity = SeverityCritical ∨ iss.Severity = SeverityWarn
      · have hpos : (countCrit issues : Int) > 0 ∨ (countWarn issues : Int) > 0 := by
          obtain ⟨ a, ha, hor ⟩ := hcw
          rcases hor with hs | hs
          · left
            have : 0 < countCrit issues :=
              List.countP_pos.mpr ⟨ a, ha, by simp [hs] ⟩
            exact_mod_cast this
          · right
            have : 0 < countWarn issues :=
              List.countP_pos.mpr ⟨ a, ha, by simp [hs] ⟩
            exact_mod_cast this
        simp only [hany, Bool.false_eq_true, if_false, if_neg hbc, if_pos hcw]
        rcases hpos with hp | hp <;> simp [hp]
      · have hz1 : countCrit issues = 0 := by
          rw [countCrit, List.countP_eq_zero]
          intro a ha
          simp only [decide_eq_true_eq]
          exact fun hs => hcw ⟨ a, ha, Or.inl hs ⟩
        have hz2 : countWarn issues = 0 := by
          rw [countWarn, List.countP_eq_zero]
          intro a ha
          simp only [decide_eq_true_eq]
          exact fun hs => hcw ⟨ a, ha, Or.inr hs ⟩
        simp [hany, hbc, hcw, hz1, hz2]
  · simp [countCrit, List.countP_eq_length_filter]
  · simp [countWarn, List.countP_eq_length_filter]
  · simp [countInfo, List.countP_eq_length_filter]

/-! ### Sort claims -/

/-- Sort key of an issue: severity rank then first evidence line. -/
def issueKey (a : Issue) : Nat × Int := (severityOrder a.Severity, firstLine a.Evidence)

/-- Sort key of a question. -/
def questionKey (a : Question) : Nat × Int := (severityOrder a.Severity, firstLine a.Evidence)

/-- C6: after SortIssues, adjacent pairs have non-decreasing severity rank,
non-decreasing first evidence line within equal rank, and equal-key items
keep their input order (the filter of any fixed key is unchanged); the
same holds for SortQuestions. -/
theorem c6_sort_sorted_and_stable :
    (severityOrder SeverityCritical = 0 ∧ severityOrder SeverityWarn = 1 ∧
      severityOrder SeverityInfo = 2 ∧
      (∀ s : Severity, severityValid s = false → severityOrder s = 3) ∧
      firstLine [] = 0) ∧
    (∀ issues : List Issue, List.Chain' (fun a b =>
      severityOrder a.Severity < severityOrder b.Severity ∨
      (severityOrder a.Severity = severityOrder b.Severity ∧
        firstLine a.Evidence ≤ firstLine b.Evidence)) (SortIssues issues)) ∧
    (∀ (issues : List Issue) (k : Nat × Int),
      (SortIssues issues).filter (fun a => issueKey a = k) =
        issues.filter (fun a => issueKey a = k)) ∧
    (∀ questions : List Question, List.Chain' (fun a b =>
      severityOrder a.Severity < severityOrder b.Severity ∨
      (severityOrder a.Severity = severityOrder b.Severity ∧
        firstLine a.Evidence ≤ firstLine b.Evidence)) (SortQuestions questions)) ∧
    (∀ (questions : List Question) (k : Nat × Int),
      (SortQuestions questions).filter (fun a => questionKey a = k) =
        questions.filter (fun a => questionKey a = k)) := by
  refine ⟨ ⟨ by decide, by decide, by decide, fun s hs => ?_, rfl ⟩,
    fun issues => ?_, fun issues k => ?_, fun questions => ?_, fun questions k => ?_ ⟩
  · simp only [severityValid, Bool.or_eq_false_iff, decide_eq_false_iff_not] at hs
    obtain ⟨ ⟨ h1, h2 ⟩, h3 ⟩ := hs
    simp [severityOrder, h1, h2, h3]
  · exact (List.Pairwise.imp (fun hab => (issueLE_iff _ _).mp hab)
      (List.sorted_insertionSort issueLE issues)).chain'
  · obtain ⟨ k1, k2 ⟩ := k
    refine insertionSort_filter_key issueLE _ issues (fun a b ha hb => ?_)
    simp only [decide_eq_true_eq, issueKey, Prod.mk.injEq] at ha hb
    rw [issueLE_iff]
    right
    obtain ⟨ ha1, ha2 ⟩ := ha
    obtain ⟨ hb1, hb2 ⟩ := hb
    exact ⟨ ha1.trans hb1.symm, le_of_eq (ha2.trans hb2.symm) ⟩
  · exact (List.Pairwise.imp (fun hab => (questionLE_iff _ _).mp hab)
      (List.sorted_insertionSort questionLE questions)).chain'
  · obtain ⟨ k1, k2 ⟩ := k
    refine insertionSort_filter_key questionLE _ questions (fun a b ha hb => ?_)
    simp only [decide_eq_true_eq, questionKey, Prod.mk.injEq] at ha hb
    rw [questionLE_iff]
    right
    obtain ⟨ ha1, ha2 ⟩ := ha
    obtain ⟨ hb1, hb2 ⟩ := hb
    exact ⟨ ha1.trans hb1.symm, le_of_eq (ha2.trans hb2.symm) ⟩

/-! ### Schema-validator claim -/

lemma string_append_left_cancel (u a b : String) (h : u ++ a = u ++ b) : a = b := by
  have hd : u.data ++ a.data = u.data ++ b.data := by
    have hc := congrArg String.data h
    simpa [String.data_append] using hc
  exact String.ext (List.append_cancel_left hd)

lemma string_append_left_iff (u a b : String) : u ++ a = u ++ b ↔ a = b :=
  ⟨ string_append_left_cancel u a b, fun h => by rw [h] ⟩

/-- C7: validateEvidence reports one error per violated rule, exactly when
the rule is violated, without short-circuiting; planLineCount 0 makes the
plan line-range condition false and disables only that check. -/
theorem c7_validate_evidence_rules (pfx : String) (ev : Evidence) (plc : Int) :
    ((validateEvidence pfx ev plc).filter (fun e => e.Path = pfx ++ ".source")).length =
      (if ev.Source ≠ "plan" ∧ ev.Source ≠ "context" then 1 else 0) ∧
    ((validateEvidence pfx ev plc).filter (fun e => e.Path = pfx ++ ".path")).length =
      (if ev.Path = "" then 1 else 0) ∧
    ((validateEvidence pfx ev plc).filter (fun e => e.Path = pfx ++ ".line_start")).length =
      (if ev.LineStart < 1 then 1 else 0) ∧
    ((validateEvidence pfx ev plc).filter (fun e => e.Path = pfx ++ ".line_end")).length =
      (if ev.LineEnd < ev.LineStart then 1 else 0) +
        (if plc > 0 ∧ ev.Source = "plan" ∧ ev.LineEnd > plc then 1 else 0) ∧
    ((validateEvidence pfx ev plc).filter (fun e => e.Path = pfx ++ ".quote")).length =
      (if ev.Quote = "" then 1 else 0) ∧
    (validateEvidence pfx ev plc).length =
      (if ev.Source ≠ "plan" ∧ ev.Source ≠ "context" then 1 else 0) +
      (if ev.Path = "" then 1 else 0) +
      (if ev.LineStart < 1 then 1 else 0) +
      (if ev.LineEnd < ev.LineStart then 1 else 0) +
      (if plc > 0 ∧ ev.Source = "plan" ∧ ev.LineEnd > plc then 1 else 0) +
      (if ev.Quote = "" then 1 else 0) := by
  unfold validateEvidence
  split_ifs <;>
    simp [List.filter_append, List.filter_cons, List.filter_nil, List.length_append,
      string_append_left_iff]

/-! ### Truncation claim -/

def review55q25 : Review :=
  { defaultReview with
    Issues := List.replicate 55 defaultIssue
    Questions := List.replicate 25 defaultQuestion }

def review5q3 : Review :=
  { defaultReview with
    Issues := List.replicate 5 defaultIssue
    Questions := List.replicate 3 defaultQuestion }

/-- C1 evaluation: with 55 issues and 25 questions under limits 50/20 the
code keeps the first 49 issues and appends the synthetic notice, leaving
50 issues (not the 51 its own test expects) and 20 questions; with 5
issues and 3 questions nothing changes. -/
theorem c1_truncate_eval :
    (Truncate review55q25 50 20).Issues.length = 50 ∧
    ¬ (Truncate review55q25 50 20).Issues.length = 51 ∧
    (Truncate review55q25 50 20).Questions.length = 20 ∧
    (Truncate review55q25 50 20).Issues.getLast? = some truncIssue ∧
    Truncate review5q3 50 20 = review5q3 := by
  decide

/-! ### Repair-orchestration claim -/

/-- Minimal review accepted by Validate at planLineCount 0. -/
def validEmptyReview : Review :=
  { Tool := "plancritic"
    Version := "1.0"
    Summary := ⟨ "EXECUTABLE_AS_IS", 100, 0, 0, 0 ⟩
    Questions := []
    Issues := []
    Patches := [] }

/-- C2 counterexample: when the first response does not parse, the
pipeline does not invoke the provider a second time and terminates with
the parse error, even though a repair response that would validate is
available. -/
theorem c2_counterexample_no_repair_on_parse_failure :
    ¬ ((runCheckValidation none (some validEmptyReview) 0).2 = 2 ∧
       (runCheckValidation none (some validEmptyReview) 0).1 ≠ CheckOutcome.parseError1) := by
  decide

/-- C2 amended: a first-attempt parse failure is terminal with one
provider invocation and no repair round-trip; the repair round-trip runs
exactly when the first response parses but fails schema validation, and
on the second attempt both a parse failure and a schema failure are
terminal while a valid repair succeeds. -/
theorem c2_parse_failure_terminal (repair : Option Review) (plc : Int)
    (rev rev2 rev3 : Review)
    (h1 : (Validate rev plc).isEmpty = false)
    (h2 : (Validate rev2 plc).isEmpty = false)
    (h3 : (Validate rev3 plc).isEmpty = true) :
    runCheckValidation none repair plc = (CheckOutcome.parseError1, 1) ∧
    runCheckValidation (some rev) none plc = (CheckOutcome.repairParseError, 2) ∧
    runCheckValidation (some rev) (some rev2) plc =
      (CheckOutcome.repairSchemaError (Validate rev2 plc), 2) ∧
    runCheckValidation (some rev) (some rev3) plc = (CheckOutcome.validated rev3, 2) ∧
    runCheckValidation (some rev3) repair plc = (CheckOutcome.validated rev3, 1) := by
  refine ⟨ rfl, ?_, ?_, ?_, ?_ ⟩
  · simp [runCheckValidation, h1]
  · simp [runCheckValidation, h1, h2]
  · simp [runCheckValidation, h1, h3]
  · simp [runCheckValidation, h3]

/-- C2 witness at concrete inputs: the default (all-empty) review fails
validation, the minimal valid review passes. -/
theorem c2_parse_failure_terminal_witness :
    runCheckValidation none none 0 = (CheckOutcome.parseError1, 1) ∧
    runCheckValidation (some defaultReview) none 0 = (CheckOutcome.repairParseError, 2) ∧
    runCheckValidation (some defaultReview) (some defaultReview) 0 =
      (CheckOutcome.repairSchemaError (Validate defaultReview 0), 2) ∧
    runCheckValidation (some defaultReview) (some validEmptyReview) 0 =
      (CheckOutcome.validated validEmptyReview, 2) ∧
    runCheckValidation (some validEmptyReview) none 0 =
      (CheckOutcome.validated validEmptyReview, 1) :=
  c2_parse_failure_terminal none 0 defaultReview defaultReview validEmptyReview
    (by decide) (by decide) (by decide)

/-! ### End-to-end grounding claim -/

lemma postGround_pos (r : Review) (h : 0 < (CheckGrounding r).length) :
    postGround r =
      { ApplyGroundingDowngrades r (CheckGrounding r) with
        Summary := ComputeSummary (ApplyGroundingDowngrades r (CheckGrounding r)).Issues
        Issues := SortIssues (ApplyGroundingDowngrades r (CheckGrounding r)).Issues } := by
  simp only [postGround]
  rw [if_pos h]

lemma truncate_singleton_issues (r : Review) (iss : Issue) (h : r.Issues = [iss]) :
    (Truncate r DefaultMaxIssues DefaultMaxQuestions).Issues = [iss] ∨
    (Truncate r DefaultMaxIssues DefaultMaxQuestions).Issues = [iss, truncIssue] := by
  unfold Truncate DefaultMaxIssues DefaultMaxQuestions
  rw [h]
  by_cases hq : ((r.Questions.length : Int) > 20)
  · right
    simp [hq]
  · left
    simp [hq]

lemma mem_phraseViolations (id fieldName text phrase : String)
    (hp : phrase ∈ fabricationPhrases)
    (hc : strContains (strToLower text) phrase = true) :
    (⟨ id, fieldName, phrase ⟩ : GroundingViolation) ∈ phraseViolations id fieldName text := by
  simp only [phraseViolations, List.mem_flatMap]
  refine ⟨ phrase, hp, ?_ ⟩
  rw [if_pos hc]
  exact List.mem_singleton_self _

lemma c3_core (r3 : Review) (iss : Issue)
    (hID : iss.ID ≠ "ISSUE-TRUNC")
    (hSev : iss.Severity = SeverityCritical)
    (hDesc : strContains (strToLower iss.Description) "the codebase uses" = true)
    (hshape : r3.Issues = [iss] ∨ r3.Issues = [iss, truncIssue]) :
    0 < (CheckGrounding r3).length ∧
    downgradeIssue iss ∈ (ApplyGroundingDowngrades r3 (CheckGrounding r3)).Issues ∧
    ∀ x ∈ (ApplyGroundingDowngrades r3 (CheckGrounding r3)).Issues,
      x.Severity ≠ SeverityCritical := by
  have hpv : (⟨ iss.ID, "description", "the codebase uses" ⟩ : GroundingViolation) ∈
      phraseViolations iss.ID "description" iss.Description :=
    mem_phraseViolations _ _ _ _ (by decide) hDesc
  have hvmem : (⟨ iss.ID, "description", "the codebase uses" ⟩ : GroundingViolation) ∈
      CheckGrounding r3 := by
    unfold CheckGrounding
    apply List.mem_append_left
    rcases hshape with h | h <;> rw [h] <;>
      simp only [checkGroundingIssues, checkGroundingIssue, List.append_nil,
        List.mem_append] <;>
      tauto
  have hlen : 0 < (CheckGrounding r3).length :=
    List.length_pos.mpr (List.ne_nil_of_mem hvmem)
  have hID2 : ¬ ("ISSUE-TRUNC" = iss.ID) := fun h2 => hID h2.symm
  have hm0 : buildIssueMap r3.Issues iss.ID = some 0 := by
    rcases hshape with h | h <;> rw [h]
    · simp [buildIssueMap, lastIdxFrom]
    · simp [buildIssueMap, lastIdxFrom, truncIssue, hID2]
  have hwf := buildIssueMap_wf r3.Issues
  have hg0 : r3.Issues.getD 0 defaultIssue = iss := by
    rcases hshape with h | h <;> rw [h] <;> rfl
  have hpos0 : (ApplyGroundingDowngrades r3 (CheckGrounding r3)).Issues.getD 0 defaultIssue =
      downgradeIssue iss := by
    have hstep := applyLoop_getD_pos (buildIssueMap r3.Issues) (CheckGrounding r3)
      r3.Issues [] 0 hwf ⟨ _, hvmem, hm0, List.not_mem_nil _ ⟩
    rw [hg0] at hstep
    exact hstep
  have hlen4 : (ApplyGroundingDowngrades r3 (CheckGrounding r3)).Issues.length =
      r3.Issues.length := applyLoop_length _ _ _ _
  have h0lt : 0 < (ApplyGroundingDowngrades r3 (CheckGrounding r3)).Issues.length := by
    rw [hlen4]
    rcases hshape with h | h <;> rw [h] <;> simp
  have hmem : downgradeIssue iss ∈ (ApplyGroundingDowngrades r3 (CheckGrounding r3)).Issues := by
    rw [← hpos0, List.getD_eq_getElem _ _ h0lt]
    exact List.getElem_mem h0lt
  refine ⟨ hlen, hmem, ?_ ⟩
  intro x hx
  obtain ⟨ i, hi, hxi ⟩ := List.mem_iff_getElem.mp hx
  have hxg : (ApplyGroundingDowngrades r3 (CheckGrounding r3)).Issues.getD i defaultIssue = x := by
    rw [List.getD_eq_getElem _ _ hi]
    exact hxi
  rcases hshape with h | h
  · have hi0 : i = 0 := by
      rw [hlen4, h] at hi
      simpa using hi
    subst hi0
    rw [hpos0] at hxg
    rw [← hxg]
    exact downgradeIssue_not_critical iss
  · have hi01 : i = 0 ∨ i = 1 := by
      rw [hlen4, h] at hi
      simp at hi
      omega
    rcases hi01 with h0 | h1
    · subst h0
      rw [hpos0] at hxg
      rw [← hxg]
      exact downgradeIssue_not_critical iss
    · subst h1
      have hg1 : r3.Issues.getD 1 defaultIssue = truncIssue := by rw [h]; rfl
      by_cases hp : ∃ v ∈ CheckGrounding r3,
          buildIssueMap r3.Issues v.IssueID = some 1 ∧ v.IssueID ∉ ([] : List String)
      · have h1p := applyLoop_getD_pos (buildIssueMap r3.Issues) (CheckGrounding r3)
          r3.Issues [] 1 hwf hp
        rw [hg1] at h1p
        have h1c : (ApplyGroundingDowngrades r3 (CheckGrounding r3)).Issues.getD 1
            defaultIssue = downgradeIssue truncIssue := h1p
        rw [h1c] at hxg
        rw [← hxg]
        exact downgradeIssue_not_critical truncIssue
      · have h1n := applyLoop_getD_neg (buildIssueMap r3.Issues) (CheckGrounding r3)
          r3.Issues [] 1 hp
        rw [hg1] at h1n
        have h1c : (ApplyGroundingDowngrades r3 (CheckGrounding r3)).Issues.getD 1
            defaultIssue = truncIssue := h1n
        rw [h1c] at hxg
        rw [← hxg]
        decide

/-- C3 amended: one CRITICAL blocking issue whose Description contains the
fabrication phrase, with an ID other than the reserved "ISSUE-TRUNC", is
downgraded to WARN and tagged UNVERIFIED by the strict post-processing
pipeline, and the final verdict is not NOT_EXECUTABLE. -/
theorem c3_pipeline_downgrade (r : Review) (iss : Issue)
    (hIss : r.Issues = [iss])
    (hID : iss.ID ≠ "ISSUE-TRUNC")
    (hSev : iss.Severity = SeverityCritical)
    (hBlock : iss.Blocking = true)
    (hDesc : strContains (strToLower iss.Description) "the codebase uses" = true) :
    (∃ iss2 ∈ (postProcessStrict r).Issues,
      iss2.ID = iss.ID ∧ iss2.Severity = SeverityWarn ∧ "UNVERIFIED" ∈ iss2.Tags) ∧
    (postProcessStrict r).Summary.Verdict ≠ VerdictNotExecutable := by
  have hsorted : (postSort (postSummary r)).Issues = [iss] := by
    show SortIssues (postSummary r).Issues = [iss]
    rw [show (postSummary r).Issues = r.Issues from rfl, hIss]
    rfl
  have hshape := truncate_singleton_issues (postSort (postSummary r)) iss hsorted
  obtain ⟨ hlen, hmem, hall ⟩ := c3_core _ iss hID hSev hDesc hshape
  set rT := Truncate (postSort (postSummary r)) DefaultMaxIssues DefaultMaxQuestions with hrT
  have hpost : postProcessStrict r = postGround rT := rfl
  rw [hpost, postGround_pos rT hlen]
  constructor
  · refine ⟨ downgradeIssue iss, ?_, downgradeIssue_ID iss, ?_, downgradeIssue_mem_tag iss ⟩
    · exact (List.mem_insertionSort issueLE).mpr hmem
    · exact downgradeIssue_crit_to_warn iss hSev
  · show (ComputeSummary (ApplyGroundingDowngrades rT (CheckGrounding rT)).Issues).Verdict ≠
      VerdictNotExecutable
    rw [computeSummary_eq]
    have hany : (ApplyGroundingDowngrades rT (CheckGrounding rT)).Issues.any
        isBlockingCritical = false := by
      rw [← Bool.not_eq_true, List.any_eq_true]
      rintro ⟨ x, hx, hbx ⟩
      simp only [isBlockingCritical, Bool.and_eq_true, decide_eq_true_eq] at hbx
      exact hall x hx hbx.1
    simp only [hany, Bool.false_eq_true, if_false]
    split_ifs <;> decide

def c3wIssue : Issue :=
  { defaultIssue with ID := "ISSUE-0001", Severity := SeverityCritical, Blocking := true, Description := "The codebase uses Redis for caching." }

def c3wReview : Review := { defaultReview with Issues := [c3wIssue] }

/-- C3 witness: the concrete scenario of the spec, with a regular issue ID. -/
theorem c3_pipeline_downgrade_witness :
    (∃ iss2 ∈ (postProcessStrict c3wReview).Issues,
      iss2.ID = c3wIssue.ID ∧ iss2.Severity = SeverityWarn ∧ "UNVERIFIED" ∈ iss2.Tags) ∧
    (postProcessStrict c3wReview).Summary.Verdict ≠ VerdictNotExecutable :=
  c3_pipeline_downgrade c3wReview c3wIssue rfl (by decide) rfl rfl (by decide)

def c3cexIssue : Issue :=
  { defaultIssue with ID := "ISSUE-TRUNC", Severity := SeverityCritical, Blocking := true, Description := "The codebase uses Redis for caching." }

def c3cexReview : Review :=
  { defaultReview with
    Issues := [c3cexIssue]
    Questions := List.replicate 21 defaultQuestion }

/-- C3 counterexample: with the reserved ID "ISSUE-TRUNC" and 21 questions,
the synthetic truncation issue shadows the CRITICAL blocking issue in the
downgrader ID map, so the final verdict stays NOT_EXECUTABLE although the
issue satisfies every condition of the claim. -/
theorem c3_counterexample_trunc_id_shadowed :
    c3cexReview.Issues = [c3cexIssue] ∧
    c3cexIssue.Severity = SeverityCritical ∧
    c3cexIssue.Blocking = true ∧
    strContains (strToLower c3cexIssue.Description) "the codebase uses" = true ∧
    (postProcessStrict c3cexReview).Summary.Verdict = VerdictNotExecutable := by
  decide

/-- C6 witness: an unrecognized severity value ranks last. -/
theorem c6_sort_sorted_and_stable_witness :
    severityValid "HIGH" = false ∧ severityOrder "HIGH" = 3 :=
  ⟨ by decide, c6_sort_sorted_and_stable.1.2.2.2.1 "HIGH" (by decide) ⟩
